import Mathlib

/-!
Verification development for the cerevi-server data-access engine.

Shallow embedding of:
* `ImarisHandler.get_tile` (backend/app/services/imaris_handler.py)
* `coor_to_shard_chunk_index`, `zarr3_reader.get_zarr_group_meta`,
  `zarr3_reader.read_chunk`, `zarr3_reader._get_index_array`
  (backend/app/util/zarr3_fs_reader.py)
* `DataService.parse_data_id`, `DataService.get_tile_bytes` img/raw branch
  (backend/app/services/data_service.py)

Machine integers are modelled as `Nat`/`Int` with explicit `% 2^w` where
overflow matters; numpy arrays as `List (List _)` (2D) or flat lists with an
explicit shape; fallible code returns `Except`.
-/

namespace Cerevi

/-- Python exception objects raised by the embedded code, with their
payload data carried structurally. -/
inductive PyErr where
  /-- `IndexError(f"Coordinate {coord} out of bounds for dimension {dim} with size {size}")` -/
  | indexError (coord : Int) (dim : Nat) (size : Nat)
  /-- `ValueError` with a message -/
  | valueError (msg : String)
  /-- `NotImplementedError` with a message -/
  | notImplemented (msg : String)
  /-- `AttributeError` (e.g. `getattr(Blosc, name)` failing) -/
  | attributeError (msg : String)
deriving DecidableEq, Repr

/-! ### numpy slicing primitives (basic slicing on non-negative indices) -/

/-- The index list `[start, stop)` (empty when `stop ≤ start`). -/
def npRange (start stop : Nat) : List Nat :=
  (List.range (stop - start)).map (start + ·)

/-- Indices selected by the numpy basic slice `a[start : start+len]` along an
axis of extent `bound` (for `0 ≤ start`): numpy clips the stop index to the
axis extent, never erroring. -/
def sliceIdx (start len bound : Nat) : List Nat :=
  npRange start (min (start + len) bound)

/-- Column `j` of a 2D array: for a rectangular list of rows this collects the
`j`-th element of every row. -/
def colAt {α : Type} (M : List (List α)) (j : Nat) : List α :=
  M.filterMap (fun r => r[j]?)

/-- numpy `.T` on a 2D array whose column count is `c` (numpy tracks the
column count in the array header even when there are zero rows). -/
def npT {α : Type} (c : Nat) (M : List (List α)) : List (List α) :=
  (List.range c).map (colAt M)

/-- `A[::-1, ::-1]`: reverse the row order and each row. -/
def npFlip2 {α : Type} (M : List (List α)) : List (List α) :=
  (M.map List.reverse).reverse

/-- `A[:, ::-1]`: reverse each row (axis 1). -/
def npFlipCols {α : Type} (M : List (List α)) : List (List α) :=
  M.map List.reverse

/-- An `r × c` matrix given by an entry formula, as a list of rows. -/
def specMatrix {α : Type} (r c : Nat) (f : Nat → Nat → α) : List (List α) :=
  (List.range r).map (fun i => (List.range c).map (f i))

/-! ### `ImarisHandler.get_tile` -/

/-- `ViewType` enum from backend/app/models/specimen.py (it has exactly the
three 2D members; there is no volumetric member). -/
inductive ViewType where
  | sagittal
  | coronal
  | horizontal
deriving DecidableEq, Repr

/-- A 3D HDF5 dataset: shape `(z, y, x)` and the stored voxel values, as in
`self._file[dataset_path]`. -/
structure Vol (α : Type) where
  sz : Nat
  sy : Nat
  sx : Nat
  data : Nat → Nat → Nat → α

/-- `ImarisHandler.get_tile` (imaris_handler.py lines 104-129): validates only
that each component of the origin `(z, y, x)` lies in `[0, shape[i])`, then
extracts the per-view slice:
* coronal:    `dataset[z, y:y+T, x:x+T][::-1, ::-1]`
* sagittal:   `dataset[z:z+T, y:y+T, x][:, ::-1].T`
* horizontal: `dataset[z:z+T, y, x:x+T][::-1, ::-1]`
numpy slicing clips the stop bound to the extent, so an overrunning tile is
returned short, not padded and not rejected. -/
def get_tile {α : Type} (vol : Vol α) (view : ViewType) (z y x : Int)
    (tile_size : Nat) : Except PyErr (List (List α)) :=
  if z < 0 ∨ (vol.sz : Int) ≤ z then
    Except.error (PyErr.indexError z 0 vol.sz)
  else if y < 0 ∨ (vol.sy : Int) ≤ y then
    Except.error (PyErr.indexError y 1 vol.sy)
  else if x < 0 ∨ (vol.sx : Int) ≤ x then
    Except.error (PyErr.indexError x 2 vol.sx)
  else
    let zn := z.toNat
    let yn := y.toNat
    let xn := x.toNat
    match view with
    | ViewType.coronal =>
        Except.ok (npFlip2 ((sliceIdx yn tile_size vol.sy).map
          (fun i => (sliceIdx xn tile_size vol.sx).map
            (fun j => vol.data zn i j))))
    | ViewType.sagittal =>
        Except.ok (npT (sliceIdx yn tile_size vol.sy).length
          (npFlipCols ((sliceIdx zn tile_size vol.sz).map
            (fun a => (sliceIdx yn tile_size vol.sy).map
              (fun b => vol.data a b xn)))))
    | ViewType.horizontal =>
        Except.ok (npFlip2 ((sliceIdx zn tile_size vol.sz).map
          (fun a => (sliceIdx xn tile_size vol.sx).map
            (fun b => vol.data a y.toNat b))))

/-! ### zarr3_fs_reader: coordinate decomposition -/

/-- `UINT64_MAX = np.int64(-1).astype(np.uint64)` (zarr3_fs_reader.py line 20). -/
def UINT64_MAX : Nat := 2 ^ 64 - 1

/-- `coor_to_shard_chunk_index` (zarr3_fs_reader.py lines 31-35): per-dimension
`s = c // shard`, `k = (c % shard) // chunk`, `r = c % shard % chunk`.
Indexing `shard_sz[i]`/`chunk_sz[i]` for `i < len(coor)` is modelled with
`getD` (callers establish equal ranks). -/
def coor_to_shard_chunk_index (coor shard_sz chunk_sz : List Nat) :
    List Nat × List Nat × List Nat :=
  ( (List.range coor.length).map (fun i => coor.getD i 0 / shard_sz.getD i 0),
    (List.range coor.length).map
      (fun i => coor.getD i 0 % shard_sz.getD i 0 / chunk_sz.getD i 0),
    (List.range coor.length).map
      (fun i => coor.getD i 0 % shard_sz.getD i 0 % chunk_sz.getD i 0) )

/-! ### zarr3_fs_reader: per-level metadata loading -/

/-- The fields of `res_lv/zarr.json` that `get_zarr_group_meta` actually reads:
`shape`, the outer chunk-grid chunk shape (shard extent), the sharding codec's
inner `chunk_shape` (chunk extent), the names of the two index codecs, the
inner chunk codec's name and its `shuffle` configuration string, the
`data_type` string and the `fill_value`. -/
structure ZaMetaJson where
  shape : List Nat
  shard_shape : List Nat
  chunk_shape : List Nat
  index_codec0_name : String
  index_codec1_name : String
  chunk_codec_name : String
  chunk_codec_shuffle : String
  data_type : String
  fill_value : Int
deriving Repr

/-- `ZarrMeta` dataclass (zarr3_fs_reader.py lines 40-50), with the
`compressor` object represented by the codec/shuffle descriptor it was built
from. -/
structure ZarrMeta where
  shape : List Nat
  shard_sz : List Nat
  chunk_sz : List Nat
  compressor_name : String
  compressor_shuffle : String
  index_array_shape : List Nat
  index_array_bytes : Nat
  crc_nbytes : Nat
  dtype : String
  fill_value : Int
deriving DecidableEq, Repr

/-- Python `str.upper()` on the ASCII shuffle names. -/
def pyUpper (s : String) : String := String.mk (s.data.map Char.toUpper)

/-- Class attributes of `numcodecs.Blosc` that `getattr(Blosc, shuffle.upper())`
can resolve; any other shuffle string raises `AttributeError`. -/
def bloscShuffleNames : List String :=
  ["NOSHUFFLE", "SHUFFLE", "BITSHUFFLE", "AUTOSHUFFLE"]

/-- `zarr3_reader.get_zarr_group_meta` (zarr3_fs_reader.py lines 70-107):
checks only the three codec names (and resolves the Blosc shuffle attribute);
`index_array_shape` is computed by floor division `shard_sz[i] // chunk_sz[i]`
with a trailing 2, and `index_array_bytes = 8 * prod(index_array_shape)`.
There is no divisibility check of `shard_sz[i] % chunk_sz[i]`. -/
def get_zarr_group_meta (j : ZaMetaJson) : Except PyErr ZarrMeta :=
  if j.index_codec0_name ≠ "bytes" then
    Except.error (PyErr.notImplemented
      ("Only bytes index codec is supported, got " ++ j.index_codec0_name ++ "."))
  else if j.index_codec1_name ≠ "crc32c" then
    Except.error (PyErr.notImplemented
      ("Only crc32c index codec is supported, got " ++ j.index_codec1_name ++ "."))
  else if j.chunk_codec_name ≠ "blosc" then
    Except.error (PyErr.notImplemented
      ("Only blosc codec is supported, got " ++ j.chunk_codec_name ++ "."))
  else if pyUpper j.chunk_codec_shuffle ∉ bloscShuffleNames then
    Except.error (PyErr.attributeError j.chunk_codec_shuffle)
  else
    let index_array_shape :=
      ((List.range j.shard_shape.length).map
        (fun i => j.shard_shape.getD i 0 / j.chunk_shape.getD i 0)) ++ [2]
    Except.ok
      { shape := j.shape
        shard_sz := j.shard_shape
        chunk_sz := j.chunk_shape
        compressor_name := j.chunk_codec_name
        compressor_shuffle := pyUpper j.chunk_codec_shuffle
        index_array_shape := index_array_shape
        index_array_bytes := 8 * index_array_shape.prod
        crc_nbytes := 4
        dtype := j.data_type
        fill_value := j.fill_value }

/-! ### zarr3_fs_reader: read_chunk -/

/-- One shard file on disk, abstracted at the level `read_chunk` consumes it:
the parsed trailing index table (chunk index ↦ `(offset, nbytes)` pair of
uint64 values, as produced by `_read_index_array`) and positioned reads
`seek(offset); read(nbytes)`. -/
structure ShardFile where
  index : List Nat → Nat × Nat
  readAt : Nat → Nat → List Nat

/-- The reader-side view of one resolution level: the `ZarrMeta` fields
`read_chunk` uses, plus the decoding pipeline
`np.frombuffer(compressor.decode(raw), dtype)` abstracted as a function from
raw bytes to the flat list of decoded values. -/
structure RMeta where
  shape : List Nat
  shard_sz : List Nat
  chunk_sz : List Nat
  dtype : String
  fill_value : Int
  decode : List Nat → List Int

/-- Possible successful payloads of `read_chunk`: a decoded numpy array
(dtype, shape, row-major values) or, with `b_decode=False`, the raw
compressed bytes. `None` is modelled by `Option.none` around this type. -/
inductive ChunkData where
  | arr (dtype : String) (shape : List Nat) (values : List Int)
  | raw (bytes : List Nat)
deriving DecidableEq, Repr

/-- `np.full(chunk_sz, fill_value, dtype)`. -/
def npFull (dtype : String) (shape : List Nat) (v : Int) : ChunkData :=
  ChunkData.arr dtype shape (List.replicate shape.prod v)

/-- `zarr3_reader.read_chunk` (zarr3_fs_reader.py lines 143-178).  The
filesystem is passed as `fs : shard index ↦ Option ShardFile` (the
deterministic path `res_lv/c/<s_idx>` keyed by `s_idx`).  Mirrors the source:
rank check against `len(meta.shard_sz)`; residual check; absent shard file ↦
fill array (or `None`); index entry `(UINT64_MAX, UINT64_MAX)` ↦ fill array
(or `None`); otherwise positioned read and decode, with numpy `reshape`
failing when the decoded length is not `prod(chunk_sz)`.  The dataset `shape`
is never consulted.  The shard-index cache in `_get_index_array` only
memoises `ShardFile.index` and is modelled separately (see `lruRun`). -/
def read_chunk (meta : RMeta) (fs : List Nat → Option ShardFile)
    (coor : List Nat) (b_decode : Bool) : Except PyErr (Option ChunkData) :=
  if coor.length ≠ meta.shard_sz.length then
    Except.error (PyErr.valueError
      ("Coordinate dimension " ++ toString coor.length ++
       " does not match data dimension " ++ toString meta.shard_sz.length ++ "."))
  else
    let skr := coor_to_shard_chunk_index coor meta.shard_sz meta.chunk_sz
    let s_idx := skr.1
    let c_idx := skr.2.1
    let residual := skr.2.2
    if residual.any (· ≠ 0) then
      Except.error (PyErr.notImplemented "Reading partial chunks is not supported.")
    else
      match fs s_idx with
      | none =>
          if b_decode then
            Except.ok (some (npFull meta.dtype meta.chunk_sz meta.fill_value))
          else
            Except.ok none
      | some shard_fd =>
          let entry := shard_fd.index c_idx
          if entry.1 = UINT64_MAX ∧ entry.2 = UINT64_MAX then
            if b_decode then
              Except.ok (some (npFull meta.dtype meta.chunk_sz meta.fill_value))
            else
              Except.ok none
          else
            let raw_data := shard_fd.readAt entry.1 entry.2
            if b_decode then
              let vals := meta.decode raw_data
              if vals.length = meta.chunk_sz.prod then
                Except.ok (some (ChunkData.arr meta.dtype meta.chunk_sz vals))
              else
                Except.error (PyErr.valueError "cannot reshape array")
            else
              Except.ok (some (ChunkData.raw raw_data))

/-! ### zarr3_fs_reader: the shard-index LRU cache

`self._index_array_cache` is an `OrderedDict`, modelled as an association
list in insertion/recency order: the head is the oldest (least recently
used) entry, the last element the most recently used. -/

/-- `OrderedDict.get`. -/
def odGet {K V : Type} [DecidableEq K] (c : List (K × V)) (k : K) : Option V :=
  (c.find? (fun p => p.1 = k)).map (fun p => p.2)

/-- `OrderedDict.move_to_end(k)`: remove the entry for `k` and re-append it at
the most-recently-used end, preserving the relative order of the others. -/
def odMoveToEnd {K V : Type} [DecidableEq K] (c : List (K × V)) (k : K) :
    List (K × V) :=
  match odGet c k with
  | none => c
  | some v => (c.eraseP (fun p => p.1 = k)) ++ [(k, v)]

/-- `OrderedDict.__setitem__`: overwrite in place when the key exists
(without changing its position), otherwise append at the recent end. -/
def odSet {K V : Type} [DecidableEq K] (c : List (K × V)) (k : K) (v : V) :
    List (K × V) :=
  if (odGet c k).isSome then
    c.map (fun p => if p.1 = k then (k, v) else p)
  else
    c ++ [(k, v)]

/-- One call of `zarr3_reader._get_index_array` (zarr3_fs_reader.py lines
130-141) acting on the cache state: on a hit, `move_to_end` marks the entry
as recently used and the cached value is returned; on a miss the value `v`
(the index array parsed from the shard file) is inserted, and if the size now
exceeds `max_cache_items`, `popitem(last=False)` evicts exactly the head,
i.e. the least-recently-used entry. -/
def get_index_array_step {K V : Type} [DecidableEq K] (cap : Nat)
    (c : List (K × V)) (k : K) (v : V) : V × List (K × V) :=
  match odGet c k with
  | some v0 => (v0, odMoveToEnd c k)
  | none =>
      let c1 := odSet c k v
      (v, if cap < c1.length then c1.tail else c1)

/-- The cache state after a sequence of `_get_index_array` calls (each given
by its shard key and the index array that a miss would parse), starting from
a given state. -/
def lruRun {K V : Type} [DecidableEq K] (cap : Nat) (ops : List (K × V))
    (c : List (K × V)) : List (K × V) :=
  ops.foldl (fun st op => (get_index_array_step cap st op.1 op.2).2) c

/-! ### DataService.get_tile_bytes, img/raw branch

The img tiles are uint16 (the `.ims`/`.zarr` microscopy volumes); a pixel is
a `Nat < 65536`.  `np.clip(tile - 100, 0, 65500)` performs the subtraction in
uint16 arithmetic (numpy keeps the array dtype), so it wraps modulo 2^16
before the clip; the result is cast to float32 (exact on this range) and then
to float16 (round to nearest, ties to even), and `tobytes()` emits two bytes
per pixel, little-endian. -/

/-- `tile - 100` elementwise on a uint16 array: wrapping subtraction. -/
def u16sub100 (v : Nat) : Nat := (v + (65536 - 100)) % 65536

/-- `np.clip(x, 0, 65500)` on a non-negative value. -/
def npClip65500 (x : Nat) : Nat := min x 65500

/-- Floor of the base-2 logarithm by fuelled halving (exact for `n < 2^64`,
and structurally recursive so that concrete evaluations reduce). -/
def log2fuel : Nat → Nat → Nat
  | 0, _ => 0
  | fuel + 1, n => if n ≤ 1 then 0 else log2fuel fuel (n / 2) + 1

/-- `⌊log₂ n⌋` for `1 ≤ n < 2^64`. -/
def nlog2 (n : Nat) : Nat := log2fuel 64 n

/-- Rounding a natural number `x ≤ 65504` to the float16 grid (round to
nearest, ties to even), i.e. the exact value of
`np.float16(np.float32(x))`: naturals below 2^11 are exactly representable;
in the binade `[2^k, 2^(k+1))` with `k ≥ 11` the grid spacing is
`2^(k-10)`. -/
def fp16round (x : Nat) : Nat :=
  if x < 2048 then x
  else
    let g := 2 ^ (nlog2 x - 10)
    let q := x / g
    let r := x % g
    if 2 * r < g then q * g
    else if g < 2 * r then (q + 1) * g
    else if q % 2 = 0 then q * g else (q + 1) * g

/-- The numeric value of one emitted img/raw pixel
(data_service.py lines 289-291): `np.float16(np.float32(np.clip(v - 100, 0,
65500)))` with `v` the stored uint16 voxel value. -/
def imgPixelCode (v : Nat) : Nat := fp16round (npClip65500 (u16sub100 v))

/-- The float16 bit pattern of a natural number that lies on the float16 grid
and is at most 65504 (all values `imgPixelCode` can produce). -/
def fp16bits (w : Nat) : Nat :=
  if w = 0 then 0
  else
    let k := nlog2 w
    (k + 15) * 1024 + (w * 1024 / 2 ^ k - 1024)

/-- `img_fp16.tobytes()` for a flat tile: two little-endian bytes per pixel. -/
def imgTileBytes (tile : List Nat) : List Nat :=
  (tile.map (fun v =>
    let b := fp16bits (imgPixelCode v)
    [b % 256, b / 256])).flatten

/-- Modelled from the spec: the emitted pixel as C8 states it — "the tile
value with a fixed background offset subtracted, clamped to a finite
non-negative range, and converted to a reduced-precision (16-bit)
floating-point value", i.e. integer subtraction clamped below at 0 (here via
truncated `Nat` subtraction) before the float16 conversion. -/
def imgPixelSpec (v : Nat) : Nat := fp16round (npClip65500 (v - 100))

/-! ### DataService.parse_data_id

Python strings are embedded as `List Char`.  `str.split(sep)` keeps empty
fields; the `_IMAGE_TYPE_RE` regex
`^(img|msk|meh)(xy|yz|xz|3d|c|s|h|3)(?:-([A-Za-z0-9_]+))?$` is embedded by
structural matching (the modality is a fixed 3-character prefix, the view
token and the encoding contain no `-`, so the remainder splits on `-` into
one or two pieces); Python's `int()` accepts surrounding whitespace, an
optional sign, and digits with single interior underscores. -/

/-- Python `s.split(sep)` for a one-character separator (keeps empties). -/
def splitOnChar (sep : Char) : List Char → List (List Char)
  | [] => [[]]
  | c :: rest =>
      match splitOnChar sep rest with
      | [] => if c = sep then [[], []] else [[c]]
      | h :: t => if c = sep then [] :: h :: t else (c :: h) :: t

/-- `[A-Za-z0-9_]`, the encoding-token character class. -/
def isWordChar (c : Char) : Bool := c.isAlpha || c.isDigit || c = '_'

/-- The view tokens accepted by `_IMAGE_TYPE_RE` (new multi-char tokens plus
the legacy single-char aliases). -/
def viewTokens : List (List Char) :=
  ["xy", "yz", "xz", "3d", "c", "s", "h", "3"].map String.toList

/-- The modality tokens. -/
def modTokens : List (List Char) := ["img", "msk", "meh"].map String.toList

/-- The `(view)(?:-(enc))?$` tail of `_IMAGE_TYPE_RE` applied to what follows
the modality. -/
def matchViewEnc (rest : List Char) : Option (List Char × Option (List Char)) :=
  match splitOnChar '-' rest with
  | [v] => if v ∈ viewTokens then some (v, none) else none
  | [v, e] =>
      if v ∈ viewTokens ∧ e ≠ [] ∧ e.all isWordChar then some (v, some e)
      else none
  | _ => none

/-- `_IMAGE_TYPE_RE.match`: modality, view and optional encoding group. -/
def matchImageType (t : List Char) :
    Option (List Char × List Char × Option (List Char)) :=
  match t with
  | m1 :: m2 :: m3 :: rest =>
      if [m1, m2, m3] ∈ modTokens then
        (matchViewEnc rest).map (fun ve => ([m1, m2, m3], ve.1, ve.2))
      else none
  | _ => none

/-- Digit runs with single interior underscores, as Python's `int()` accepts
after the optional sign: `digit (underscore? digit)*`. -/
def pyDigits : List Char → Bool
  | [] => false
  | [c] => c.isDigit
  | c :: '_' :: rest => c.isDigit && pyDigits rest
  | c :: rest => c.isDigit && pyDigits rest

/-- The numeric value of such a digit run (underscores skipped). -/
def pyDigitsVal (l : List Char) : Nat :=
  l.foldl (fun n c => if c = '_' then n else 10 * n + (c.toNat - 48)) 0

/-- `str.strip()` of whitespace. -/
def pyStrip (l : List Char) : List Char :=
  ((l.dropWhile Char.isWhitespace).reverse.dropWhile Char.isWhitespace).reverse

/-- Python `int(s)`: `none` models a raised `ValueError`. -/
def pyInt (s : List Char) : Option Int :=
  match pyStrip s with
  | '+' :: rest => if pyDigits rest then some (pyDigitsVal rest : Nat) else none
  | '-' :: rest => if pyDigits rest then some (-(pyDigitsVal rest : Nat)) else none
  | rest => if pyDigits rest then some (pyDigitsVal rest : Nat) else none

/-- `ParsedDataId` dataclass (data_service.py lines 60-68). -/
structure ParsedDataId where
  specimen_id : List Char
  modality : List Char
  view_type : List Char
  encoding : Option (List Char)
  res_level : Option Int
  channel : Option Int
  pos_index : List Char
deriving DecidableEq, Repr

/-- The per-modality encoding default applied when the regex's encoding group
is absent (data_service.py lines 168-174). -/
def resolveEnc (modality : List Char) (enc : Option (List Char)) :
    Option (List Char) :=
  match enc with
  | some e => some e
  | none =>
      if modality = "img".toList then some "raw".toList
      else if modality = "msk".toList then some "png".toList
      else if modality = "meh".toList then some "obj".toList
      else none

/-- `int(raw) if raw.strip() != '' else None` for the resolution-level and
channel fields, with `int()`'s `ValueError` propagating. -/
def parseIntField (raw : List Char) : Except PyErr (Option Int) :=
  if pyStrip raw = [] then Except.ok none
  else
    match pyInt raw with
    | some n => Except.ok (some n)
    | none => Except.error (PyErr.valueError
        ("invalid literal for int() with base 10: " ++ String.mk raw))

/-- `DataService.parse_data_id` (data_service.py lines 158-183): split on `:`
into exactly five fields, match the image-type field against
`_IMAGE_TYPE_RE`, default the encoding per modality, convert the
resolution-level and channel fields with `int()` unless they strip to
empty. -/
def parse_data_id (s : List Char) : Except PyErr ParsedDataId :=
  match splitOnChar ':' s with
  | [sp, it, rl, ch, pos] =>
      match matchImageType it with
      | none => Except.error (PyErr.valueError
          ("Invalid image_type format: " ++ String.mk it))
      | some (modality, view, enc) =>
          match parseIntField rl with
          | Except.error e => Except.error e
          | Except.ok rlv =>
              match parseIntField ch with
              | Except.error e => Except.error e
              | Except.ok chv =>
                  Except.ok
                    { specimen_id := sp
                      modality := modality
                      view_type := view
                      encoding := resolveEnc modality enc
                      res_level := rlv
                      channel := chv
                      pos_index := pos }
  | _ => Except.error (PyErr.valueError
      "data_id must have 5 colon-separated segments")

/-! ## Helper lemmas -/

theorem rangeMap_getD (f : Nat → Nat) (n i : Nat) (h : i < n) :
    ((List.range n).map f).getD i 0 = f i := by
  rw [List.getD_eq_getElem _ _ (by simpa using h)]
  simp

/-! ## Claim theorems -/

/-- C2: for coordinates of rank n (non-negative entries) and positive shard
and chunk extents of the same rank, the decomposition computed by
`coor_to_shard_chunk_index` satisfies, in every dimension `i`,
`shard_sz[i]*s[i] + chunk_sz[i]*k[i] + r[i] = coor[i]`, and `r[i] = 0`
whenever `chunk_sz[i]` divides `coor[i]` and divides `shard_sz[i]`. -/
theorem C2_decomposition_invariant (coor shard_sz chunk_sz : List Nat)
    (hs : shard_sz.length = coor.length) (hc : chunk_sz.length = coor.length)
    (hsp : ∀ v ∈ shard_sz, 0 < v) (hcp : ∀ v ∈ chunk_sz, 0 < v) :
    ∀ i, i < coor.length →
      (shard_sz.getD i 0 *
          ((coor_to_shard_chunk_index coor shard_sz chunk_sz).1.getD i 0)
        + chunk_sz.getD i 0 *
          ((coor_to_shard_chunk_index coor shard_sz chunk_sz).2.1.getD i 0)
        + ((coor_to_shard_chunk_index coor shard_sz chunk_sz).2.2.getD i 0)
        = coor.getD i 0)
      ∧ (chunk_sz.getD i 0 ∣ coor.getD i 0 →
          chunk_sz.getD i 0 ∣ shard_sz.getD i 0 →
          (coor_to_shard_chunk_index coor shard_sz chunk_sz).2.2.getD i 0 = 0) := by
  intro i hi
  unfold coor_to_shard_chunk_index
  rw [rangeMap_getD _ _ _ hi, rangeMap_getD _ _ _ hi, rangeMap_getD _ _ _ hi]
  set c := coor.getD i 0 with hc0
  set S := shard_sz.getD i 0 with hS0
  set C := chunk_sz.getD i 0 with hC0
  have hCpos : 0 < C := by
    have : C = chunk_sz[i] := by
      rw [hC0, List.getD_eq_getElem _ _ (by omega)]
    exact this ▸ hcp _ (List.getElem_mem _)
  constructor
  · have h1 := Nat.div_add_mod c S
    have h2 := Nat.div_add_mod (c % S) C
    omega
  · intro hdc hds
    have hdm : C ∣ c % S := (Nat.dvd_mod_iff hds).mpr hdc
    exact Nat.mod_eq_zero_of_dvd hdm

/-- Witness for C2 at `coor = [7, 13]`, `shard_sz = [6, 10]`,
`chunk_sz = [3, 5]`, dimension 0: `6*1 + 3*0 + 1 = 7` and the aligned case
at dimension 1 gives residual 0 for `coor = [7, 15]`. -/
theorem C2_decomposition_invariant_witness :
    6 * ((coor_to_shard_chunk_index [7, 13] [6, 10] [3, 5]).1.getD 0 0)
      + 3 * ((coor_to_shard_chunk_index [7, 13] [6, 10] [3, 5]).2.1.getD 0 0)
      + ((coor_to_shard_chunk_index [7, 13] [6, 10] [3, 5]).2.2.getD 0 0) = 7 := by
  have h := C2_decomposition_invariant [7, 13] [6, 10] [3, 5]
    (by decide) (by decide) (by decide) (by decide) 0 (by decide)
  exact h.1

/-- C4: for a rank-matching, chunk-aligned coordinate, `read_chunk` with
decoding enabled returns the full `chunk_sz`-shaped array of the declared
fill value and dtype — raising no error — both when the shard file is absent
and when the shard's index entry is the `(UINT64_MAX, UINT64_MAX)`
empty-chunk marker. -/
theorem C4_absent_chunk_fill (meta : RMeta) (fs : List Nat → Option ShardFile)
    (coor : List Nat) (hrank : coor.length = meta.shard_sz.length)
    (halign : ∀ r ∈ (coor_to_shard_chunk_index coor meta.shard_sz meta.chunk_sz).2.2,
      r = 0) :
    (fs (coor_to_shard_chunk_index coor meta.shard_sz meta.chunk_sz).1 = none →
      read_chunk meta fs coor true =
        Except.ok (some (npFull meta.dtype meta.chunk_sz meta.fill_value)))
    ∧ (∀ f, fs (coor_to_shard_chunk_index coor meta.shard_sz meta.chunk_sz).1 = some f →
        f.index (coor_to_shard_chunk_index coor meta.shard_sz meta.chunk_sz).2.1 =
          (UINT64_MAX, UINT64_MAX) →
        read_chunk meta fs coor true =
          Except.ok (some (npFull meta.dtype meta.chunk_sz meta.fill_value))) := by
  have hany : ((coor_to_shard_chunk_index coor meta.shard_sz meta.chunk_sz).2.2).any
      (· ≠ 0) = false :=
    List.any_eq_false.mpr (fun x hx => by simpa using halign x hx)
  constructor
  · intro hfs
    simp [read_chunk, hrank, hany, hfs]
    exact fun x hx => halign x hx
  · intro f hfs hidx
    simp [read_chunk, hrank, hany, hfs, hidx, UINT64_MAX]
    exact fun x hx => halign x hx

/-- Witness for C4: a 1-D level with `shard_sz = [16]`, `chunk_sz = [4]`,
fill value 7, dtype `"uint16"`, at the aligned coordinate `[8]`: once with no
shard file at all and once with a shard whose index entry for chunk `[2]` is
the absent marker. -/
theorem C4_absent_chunk_fill_witness :
    read_chunk ⟨[64], [16], [4], "uint16", 7, fun _ => []⟩ (fun _ => none) [8] true =
      Except.ok (some (npFull "uint16" [4] 7))
    ∧ read_chunk ⟨[64], [16], [4], "uint16", 7, fun _ => []⟩
        (fun s => if s = [0] then
            some ⟨fun _ => (UINT64_MAX, UINT64_MAX), fun _ _ => []⟩ else none)
        [8] true =
      Except.ok (some (npFull "uint16" [4] 7)) := by
  constructor
  · exact (C4_absent_chunk_fill ⟨[64], [16], [4], "uint16", 7, fun _ => []⟩
      (fun _ => none) [8] rfl (by decide)).1 rfl
  · exact (C4_absent_chunk_fill ⟨[64], [16], [4], "uint16", 7, fun _ => []⟩
      (fun s => if s = [0] then
          some ⟨fun _ => (UINT64_MAX, UINT64_MAX), fun _ _ => []⟩ else none)
      [8] rfl (by decide)).2 _ rfl rfl

/-- C5: `read_chunk` fails with the rank-mismatch `ValueError` whenever the
coordinate's rank differs from the dataset's, and — when the rank matches —
fails with the "Reading partial chunks is not supported." error (the spec's
InvalidArgument kind for non-chunk-aligned coordinates, raised as
`NotImplementedError` in the source) whenever any residual term is non-zero;
in both cases it returns an error, never a partial chunk. -/
theorem C5_unaligned_rejection (meta : RMeta) (fs : List Nat → Option ShardFile)
    (coor : List Nat) (b_decode : Bool) :
    (coor.length ≠ meta.shard_sz.length →
      read_chunk meta fs coor b_decode = Except.error (PyErr.valueError
        ("Coordinate dimension " ++ toString coor.length ++
         " does not match data dimension " ++ toString meta.shard_sz.length ++ ".")))
    ∧ (coor.length = meta.shard_sz.length →
      ∀ i, i < coor.length →
        (coor_to_shard_chunk_index coor meta.shard_sz meta.chunk_sz).2.2.getD i 0 ≠ 0 →
        read_chunk meta fs coor b_decode =
          Except.error (PyErr.notImplemented "Reading partial chunks is not supported.")) := by
  constructor
  · intro hrank
    simp [read_chunk, hrank]
  · intro hrank i hi hres
    have hlen : (coor_to_shard_chunk_index coor meta.shard_sz meta.chunk_sz).2.2.length
        = coor.length := by
      simp [coor_to_shard_chunk_index]
    have hmem : (coor_to_shard_chunk_index coor meta.shard_sz meta.chunk_sz).2.2.getD i 0
        ∈ (coor_to_shard_chunk_index coor meta.shard_sz meta.chunk_sz).2.2 := by
      rw [List.getD_eq_getElem _ _ (by omega)]
      exact List.getElem_mem _
    have hne : ¬ (∀ r ∈ (coor_to_shard_chunk_index coor meta.shard_sz meta.chunk_sz).2.2,
        r = 0) := fun hall => hres (hall _ hmem)
    simp [read_chunk, hrank, hne]

/-- Witness for C5: rank mismatch `[1, 2]` against a 1-D dataset, and the
unaligned coordinate `[6]` against `chunk_sz = [4]` (residual 2). -/
theorem C5_unaligned_rejection_witness :
    read_chunk ⟨[64], [16], [4], "uint16", 7, fun _ => []⟩ (fun _ => none) [1, 2] true =
      Except.error (PyErr.valueError
        "Coordinate dimension 2 does not match data dimension 1.")
    ∧ read_chunk ⟨[64], [16], [4], "uint16", 7, fun _ => []⟩ (fun _ => none) [6] true =
      Except.error (PyErr.notImplemented "Reading partial chunks is not supported.") := by
  constructor
  · exact (C5_unaligned_rejection ⟨[64], [16], [4], "uint16", 7, fun _ => []⟩
      (fun _ => none) [1, 2] true).1 (by decide)
  · exact (C5_unaligned_rejection ⟨[64], [16], [4], "uint16", 7, fun _ => []⟩
      (fun _ => none) [6] true).2 rfl 0 (by decide) (by decide)

/-- C10: `read_chunk` never consults the dataset's declared `shape` — its
result is unchanged under replacing `shape` by anything — and in particular a
rank-matching, chunk-aligned coordinate at or beyond the shape bound in some
dimension whose shard file is absent still yields the fill-value array with
no out-of-bounds error. -/
theorem C10_no_shape_check (meta : RMeta) (fs : List Nat → Option ShardFile)
    (coor : List Nat) :
    (∀ sh1 sh2 b,
      read_chunk { meta with shape := sh1 } fs coor b =
      read_chunk { meta with shape := sh2 } fs coor b)
    ∧ (coor.length = meta.shard_sz.length →
      (∀ r ∈ (coor_to_shard_chunk_index coor meta.shard_sz meta.chunk_sz).2.2, r = 0) →
      (∃ i, i < coor.length ∧ meta.shape.getD i 0 ≤ coor.getD i 0) →
      fs (coor_to_shard_chunk_index coor meta.shard_sz meta.chunk_sz).1 = none →
      read_chunk meta fs coor true =
        Except.ok (some (npFull meta.dtype meta.chunk_sz meta.fill_value))) := by
  constructor
  · intro sh1 sh2 b
    rfl
  · intro hrank halign _ hfs
    simp [read_chunk, hrank, hfs]
    exact fun x hx => halign x hx

/-- Witness for C10: shape `[64]`, coordinate `[64]` (at the bound), shard
file absent: the fill array is returned, no error. -/
theorem C10_no_shape_check_witness :
    read_chunk ⟨[64], [16], [4], "uint16", 7, fun _ => []⟩ (fun _ => none) [64] true =
      Except.ok (some (npFull "uint16" [4] 7)) :=
  (C10_no_shape_check ⟨[64], [16], [4], "uint16", 7, fun _ => []⟩
    (fun _ => none) [64]).2 rfl (by decide) ⟨0, by decide, by decide⟩ rfl

/-- C7 counterexample: metadata whose shard extent 5 is not a multiple of its
chunk extent 2 — all codec names supported — is accepted by
`get_zarr_group_meta` (with `index_array_shape` computed by floor division
`5 // 2 = 2`), refuting the claim that the loader validates the divisibility
invariant and fails otherwise. -/
theorem C7_counterexample :
    5 % 2 ≠ 0 ∧
    get_zarr_group_meta
      { shape := [100], shard_shape := [5], chunk_shape := [2],
        index_codec0_name := "bytes", index_codec1_name := "crc32c",
        chunk_codec_name := "blosc", chunk_codec_shuffle := "shuffle",
        data_type := "uint16", fill_value := 0 } =
      Except.ok
        { shape := [100], shard_sz := [5], chunk_sz := [2],
          compressor_name := "blosc", compressor_shuffle := "SHUFFLE",
          index_array_shape := [2, 2], index_array_bytes := 32,
          crc_nbytes := 4, dtype := "uint16", fill_value := 0 } := by
  constructor
  · decide
  · rfl

/-- C7 amended: `get_zarr_group_meta` validates only the codec names (bytes
index codec, crc32c index checksum codec, blosc chunk codec with a resolvable
shuffle attribute); it performs no divisibility check of
`shard_extent[i] % chunk_extent[i]`, computing the index-array shape by floor
division, and serves any metadata whose codecs pass. -/
theorem C7_amended_codec_only_validation (j : ZaMetaJson) :
    ((∃ m, get_zarr_group_meta j = Except.ok m) ↔
      (j.index_codec0_name = "bytes" ∧ j.index_codec1_name = "crc32c" ∧
       j.chunk_codec_name = "blosc" ∧ pyUpper j.chunk_codec_shuffle ∈ bloscShuffleNames))
    ∧ ((j.index_codec0_name = "bytes" ∧ j.index_codec1_name = "crc32c" ∧
        j.chunk_codec_name = "blosc" ∧ pyUpper j.chunk_codec_shuffle ∈ bloscShuffleNames) →
      get_zarr_group_meta j =
        Except.ok
          { shape := j.shape
            shard_sz := j.shard_shape
            chunk_sz := j.chunk_shape
            compressor_name := j.chunk_codec_name
            compressor_shuffle := pyUpper j.chunk_codec_shuffle
            index_array_shape :=
              ((List.range j.shard_shape.length).map
                (fun i => j.shard_shape.getD i 0 / j.chunk_shape.getD i 0)) ++ [2]
            index_array_bytes := 8 *
              (((List.range j.shard_shape.length).map
                (fun i => j.shard_shape.getD i 0 / j.chunk_shape.getD i 0)) ++ [2]).prod
            crc_nbytes := 4
            dtype := j.data_type
            fill_value := j.fill_value }) := by
  unfold get_zarr_group_meta
  split_ifs with h1 h2 h3 h4 <;> simp_all

/-- Witness for C7 amended: metadata with shard extent 6, chunk extent 4
(again not divisible: `6 % 4 = 2`) and supported codecs loads successfully. -/
theorem C7_amended_codec_only_validation_witness :
    get_zarr_group_meta
      { shape := [50], shard_shape := [6], chunk_shape := [4],
        index_codec0_name := "bytes", index_codec1_name := "crc32c",
        chunk_codec_name := "blosc", chunk_codec_shuffle := "noshuffle",
        data_type := "uint8", fill_value := 3 } =
      Except.ok
        { shape := [50], shard_sz := [6], chunk_sz := [4],
          compressor_name := "blosc", compressor_shuffle := "NOSHUFFLE",
          index_array_shape := [1, 2], index_array_bytes := 16,
          crc_nbytes := 4, dtype := "uint8", fill_value := 3 } := by
  have h := (C7_amended_codec_only_validation
    { shape := [50], shard_shape := [6], chunk_shape := [4],
      index_codec0_name := "bytes", index_codec1_name := "crc32c",
      chunk_codec_name := "blosc", chunk_codec_shuffle := "noshuffle",
      data_type := "uint8", fill_value := 3 }).2
    ⟨rfl, rfl, rfl, by decide⟩
  simpa using h

theorem odMoveToEnd_length {K V : Type} [DecidableEq K] (c : List (K × V)) (k : K) :
    (odMoveToEnd c k).length = c.length := by
  unfold odMoveToEnd
  cases hg : odGet c k with
  | none => rfl
  | some v =>
    obtain ⟨p, hfind⟩ : ∃ p, c.find? (fun p => p.1 = k) = some p := by
      unfold odGet at hg
      cases hf : c.find? (fun p => p.1 = k) with
      | none => rw [hf] at hg; simp at hg
      | some p => exact ⟨p, rfl⟩
    have hmem := List.mem_of_find?_eq_some hfind
    have hp := List.find?_some hfind
    have hlen := List.length_eraseP_add_one
      (p := fun q : K × V => decide (q.1 = k)) hmem hp
    simp only [List.length_append, List.length_cons, List.length_nil]
    omega

theorem get_index_array_step_length {K V : Type} [DecidableEq K] (cap : Nat)
    (c : List (K × V)) (k : K) (v : V) (h : c.length ≤ cap) :
    ((get_index_array_step cap c k v).2).length ≤ cap := by
  unfold get_index_array_step
  cases hg : odGet c k with
  | some v0 =>
    simpa [odMoveToEnd_length] using h
  | none =>
    have hset : odSet c k v = c ++ [(k, v)] := by
      unfold odSet
      rw [hg]
      rfl
    simp only [hset]
    split
    · simp only [List.length_tail, List.length_append, List.length_cons,
        List.length_nil]
      omega
    · next hc =>
      simp only [List.length_append, List.length_cons, List.length_nil] at hc ⊢
      omega

theorem lruRun_length_le {K V : Type} [DecidableEq K] (cap : Nat)
    (ops : List (K × V)) : ∀ c : List (K × V), c.length ≤ cap →
    (lruRun cap ops c).length ≤ cap := by
  induction ops with
  | nil => intro c h; exact h
  | cons op ops ih =>
    intro c h
    exact ih _ (get_index_array_step_length cap c op.1 op.2 h)

/-- C6: starting empty, the shard-index cache never exceeds its configured
capacity after any sequence of `_get_index_array` calls; an insertion at full
capacity on a fresh key evicts exactly one entry, namely the head of the
recency order (the least-recently-used entry); and a cache hit re-ranks the
hit key as most recently used, leaving the other entries in order. -/
theorem C6_lru_cache_bound {K V : Type} [DecidableEq K] (cap : Nat) :
    (∀ ops : List (K × V), (lruRun cap ops []).length ≤ cap)
    ∧ (∀ (c : List (K × V)) (k : K) (v : V), 0 < cap → c.length = cap →
        odGet c k = none →
        (get_index_array_step cap c k v).2 = c.tail ++ [(k, v)])
    ∧ (∀ (c : List (K × V)) (k : K) (v v0 : V), odGet c k = some v0 →
        (get_index_array_step cap c k v).2 =
          c.eraseP (fun p => p.1 = k) ++ [(k, v0)]) := by
  refine ⟨fun ops => lruRun_length_le cap ops [] (by simp), ?_, ?_⟩
  · intro c k v hcap hfull hmiss
    unfold get_index_array_step
    rw [hmiss]
    have hset : odSet c k v = c ++ [(k, v)] := by
      unfold odSet
      rw [hmiss]
      rfl
    simp only [hset]
    have hlt : cap < (c ++ [(k, v)]).length := by
      simp [hfull]
    rw [if_pos hlt]
    cases c with
    | nil => simp at hfull; omega
    | cons a c' => rfl
  · intro c k v v0 hhit
    unfold get_index_array_step
    rw [hhit]
    unfold odMoveToEnd
    rw [hhit]

/-- Witness for C6 at capacity 2 over `Nat × Nat` entries: a four-operation
run stays within the bound; inserting key 3 into the full cache
`[(1,10),(2,20)]` evicts exactly the oldest entry `(1,10)`; and a hit on key
1 re-ranks it to the most-recent end. -/
theorem C6_lru_cache_bound_witness :
    (lruRun 2 [(1, 10), (2, 20), (3, 30), (1, 11)] ([] : List (Nat × Nat))).length ≤ 2
    ∧ (get_index_array_step 2 [(1, 10), (2, 20)] 3 (30 : Nat)).2 = [(2, 20), (3, 30)]
    ∧ (get_index_array_step 2 [(1, 10), (2, 20)] 1 (99 : Nat)).2 = [(2, 20), (1, 10)] := by
  refine ⟨(C6_lru_cache_bound 2).1 _, ?_, ?_⟩
  · have h := (C6_lru_cache_bound (K := Nat) (V := Nat) 2).2.1
      [(1, 10), (2, 20)] 3 30 (by decide) rfl (by decide)
    simpa using h
  · have h := (C6_lru_cache_bound (K := Nat) (V := Nat) 2).2.2
      [(1, 10), (2, 20)] 1 99 10 (by decide)
    simpa using h

/-- C8 (code bug evaluation): for a uint16 voxel value below the background
offset 100 — e.g. 0 — `np.clip(tile - 100, 0, 65500)` wraps in uint16
arithmetic before the clip, so the emitted float16 pixel is 65440 (a
near-maximal bright value), not the background-subtracted, non-negatively
clamped value 0 the claim describes; above the offset (e.g. 150) code and
claim agree (pixel 50).  The byte-count contract `2 * pixel_count` holds
either way: the two pixels emit the little-endian float16 buffers
`[253, 123]` (bits of 65440) and `[64, 82]` (bits of 50). -/
theorem C8_img_raw_wraparound_eval :
    imgPixelCode 0 = 65440
    ∧ imgPixelSpec 0 = 0
    ∧ imgPixelCode 150 = 50
    ∧ imgPixelSpec 150 = 50
    ∧ imgTileBytes [0, 150] = [253, 123, 64, 82]
    ∧ (imgTileBytes [0, 150]).length = 2 * 2 := by
  decide

theorem parseIntField_ok_iff (raw : List Char) :
    (∃ v, parseIntField raw = Except.ok v) ↔
    (pyStrip raw = [] ∨ (pyInt raw).isSome = true) := by
  unfold parseIntField
  by_cases h : pyStrip raw = []
  · simp [h]
  · simp only [h, if_neg h, false_or]
    cases hi : pyInt raw <;> simp [hi]

/-- C9 counterexample: `"a:imgxy:q:0:0,0,0"` has exactly five colon-separated
fields and an image-type field matching the grammar, yet parsing fails —
`int("q")` for the resolution-level field raises `ValueError` — refuting the
claim's "if and only if". -/
theorem C9_counterexample :
    (splitOnChar ':' "a:imgxy:q:0:0,0,0".toList).length = 5
    ∧ (matchImageType "imgxy".toList).isSome = true
    ∧ parse_data_id "a:imgxy:q:0:0,0,0".toList =
        Except.error (PyErr.valueError "invalid literal for int() with base 10: q") := by
  refine ⟨by decide, by decide, by rfl⟩

/-- C9 amended: parsing succeeds iff the identifier splits into exactly five
colon-separated fields, the image-type field matches
`{modality}{view}[-{encoding}]` (modality in img/msk/meh, view in the
accepted token set), and additionally the resolution-level and channel fields
each either strip to empty or are valid integer literals; on success the
encoding group, when omitted, defaults per modality to raw (img), png (msk)
or obj (meh). -/
theorem C9_amended_parse_characterisation (s : List Char) :
    ((∃ p, parse_data_id s = Except.ok p) ↔
      ((splitOnChar ':' s).length = 5
        ∧ (matchImageType ((splitOnChar ':' s).getD 1 [])).isSome = true
        ∧ (pyStrip ((splitOnChar ':' s).getD 2 []) = []
            ∨ (pyInt ((splitOnChar ':' s).getD 2 [])).isSome = true)
        ∧ (pyStrip ((splitOnChar ':' s).getD 3 []) = []
            ∨ (pyInt ((splitOnChar ':' s).getD 3 [])).isSome = true)))
    ∧ (∀ p, parse_data_id s = Except.ok p →
        ∃ enc0, matchImageType ((splitOnChar ':' s).getD 1 []) =
            some (p.modality, p.view_type, enc0)
          ∧ p.encoding = resolveEnc p.modality enc0
          ∧ (enc0 = none →
              (p.modality = "img".toList → p.encoding = some "raw".toList)
              ∧ (p.modality = "msk".toList → p.encoding = some "png".toList)
              ∧ (p.modality = "meh".toList → p.encoding = some "obj".toList))) := by
  rcases hsp : splitOnChar ':' s with _ | ⟨a, _ | ⟨b, _ | ⟨c, _ | ⟨d, _ | ⟨e, _ | ⟨f, rest⟩⟩⟩⟩⟩⟩
  case nil => constructor
              · simp [parse_data_id, hsp]
              · intro p hp; simp [parse_data_id, hsp] at hp
  case cons.nil => constructor
                   · simp [parse_data_id, hsp]
                   · intro p hp; simp [parse_data_id, hsp] at hp
  case cons.cons.nil => constructor
                        · simp [parse_data_id, hsp]
                        · intro p hp; simp [parse_data_id, hsp] at hp
  case cons.cons.cons.nil => constructor
                             · simp [parse_data_id, hsp]
                             · intro p hp; simp [parse_data_id, hsp] at hp
  case cons.cons.cons.cons.nil => constructor
                                  · simp [parse_data_id, hsp]
                                  · intro p hp; simp [parse_data_id, hsp] at hp
  case cons.cons.cons.cons.cons.cons =>
    constructor
    · simp [parse_data_id, hsp]
    · intro p hp; simp [parse_data_id, hsp] at hp
  case cons.cons.cons.cons.cons.nil =>
    constructor
    · constructor
      · rintro ⟨p, hp⟩
        simp only [parse_data_id, hsp] at hp
        cases hm : matchImageType b with
        | none => rw [hm] at hp; simp at hp
        | some mve =>
          obtain ⟨modality, view, enc⟩ := mve
          rw [hm] at hp
          cases hrl : parseIntField c with
          | error er => rw [hrl] at hp; simp at hp
          | ok rlv =>
            cases hch : parseIntField d with
            | error er => rw [hrl, hch] at hp; simp at hp
            | ok chv =>
              refine ⟨by simp, by simp [hm], ?_, ?_⟩
              · exact (parseIntField_ok_iff c).mp ⟨rlv, hrl⟩
              · exact (parseIntField_ok_iff d).mp ⟨chv, hch⟩
      · rintro ⟨-, hmt, hc, hd⟩
        simp only [hsp, List.getD] at hmt hc hd
        obtain ⟨⟨modality, view, enc⟩, hm⟩ := Option.isSome_iff_exists.mp (by simpa using hmt)
        obtain ⟨rlv, hrl⟩ := (parseIntField_ok_iff c).mpr (by simpa using hc)
        obtain ⟨chv, hch⟩ := (parseIntField_ok_iff d).mpr (by simpa using hd)
        refine ⟨{ specimen_id := a, modality := modality, view_type := view,
                  encoding := resolveEnc modality enc, res_level := rlv,
                  channel := chv, pos_index := e }, ?_⟩
        simp [parse_data_id, hsp, hm, hrl, hch]
    · intro p hp
      simp only [parse_data_id, hsp] at hp
      cases hm : matchImageType b with
      | none => rw [hm] at hp; simp at hp
      | some mve =>
        obtain ⟨modality, view, enc⟩ := mve
        rw [hm] at hp
        cases hrl : parseIntField c with
        | error er => rw [hrl] at hp; simp at hp
        | ok rlv =>
          cases hch : parseIntField d with
          | error er => rw [hrl, hch] at hp; simp at hp
          | ok chv =>
            rw [hrl, hch] at hp
            simp only [Except.ok.injEq] at hp
            subst hp
            refine ⟨enc, by simpa using hm, rfl, ?_⟩
            rintro rfl
            refine ⟨?_, ?_, ?_⟩
            · intro hmod
              have hm2 : modality = "img".toList := hmod
              subst hm2
              rfl
            · intro hmod
              have hm2 : modality = "msk".toList := hmod
              subst hm2
              rfl
            · intro hmod
              have hm2 : modality = "meh".toList := hmod
              subst hm2
              rfl

/-- Witness for C9 amended at `"a:imgxy:2:0:1,2,3"`: parsing succeeds, the
image-type match carries no encoding group, and the parsed encoding is the
img default `raw`. -/
theorem C9_amended_parse_characterisation_witness :
    (∃ p, parse_data_id "a:imgxy:2:0:1,2,3".toList = Except.ok p)
    ∧ ∃ enc0,
        matchImageType ((splitOnChar ':' "a:imgxy:2:0:1,2,3".toList).getD 1 []) =
          some ("img".toList, "xy".toList, enc0)
        ∧ (parse_data_id "a:imgxy:2:0:1,2,3".toList =
            Except.ok
              { specimen_id := "a".toList
                modality := "img".toList
                view_type := "xy".toList
                encoding := some "raw".toList
                res_level := some 2
                channel := some 0
                pos_index := "1,2,3".toList }) := by
  constructor
  · exact (C9_amended_parse_characterisation "a:imgxy:2:0:1,2,3".toList).1.mpr
      (by decide)
  · obtain ⟨enc0, hm, -, -⟩ :=
      (C9_amended_parse_characterisation "a:imgxy:2:0:1,2,3".toList).2
        { specimen_id := "a".toList
          modality := "img".toList
          view_type := "xy".toList
          encoding := some "raw".toList
          res_level := some 2
          channel := some 0
          pos_index := "1,2,3".toList } (by rfl)
    exact ⟨enc0, hm, by rfl⟩

/-! ### Tile-orientation lemmas -/

theorem map_range_reverse {α : Type} (f : Nat → α) (n : Nat) :
    ((List.range n).map f).reverse = (List.range n).map (fun i => f (n - 1 - i)) := by
  apply List.ext_getElem
  · simp
  · intro i h1 h2
    simp only [List.length_reverse, List.length_map, List.length_range] at h1 h2
    rw [List.getElem_reverse]
    simp

theorem filterMap_eq_map_of_some {α β : Type} (l : List α) (g : α → Option β)
    (f : α → β) (h : ∀ a ∈ l, g a = some (f a)) : l.filterMap g = l.map f := by
  induction l with
  | nil => rfl
  | cons x xs ih =>
    rw [List.filterMap_cons, h x (by simp), List.map_cons,
      ih (fun a ha => h a (List.mem_cons_of_mem _ ha))]

theorem colAt_specMatrix {α : Type} (r c : Nat) (f : Nat → Nat → α) (j : Nat)
    (hj : j < c) :
    colAt (specMatrix r c f) j = (List.range r).map (fun i => f i j) := by
  unfold colAt specMatrix
  rw [List.filterMap_map]
  apply filterMap_eq_map_of_some
  intro a _
  simp [hj]

theorem npT_specMatrix {α : Type} (r c : Nat) (f : Nat → Nat → α) :
    npT c (specMatrix r c f) = specMatrix c r (fun j i => f i j) := by
  unfold npT
  apply List.map_congr_left
  intro j hj
  exact colAt_specMatrix r c f j (by simpa using hj)

theorem npFlipCols_specMatrix {α : Type} (r c : Nat) (f : Nat → Nat → α) :
    npFlipCols (specMatrix r c f) = specMatrix r c (fun i j => f i (c - 1 - j)) := by
  unfold npFlipCols specMatrix
  rw [List.map_map]
  apply List.map_congr_left
  intro i _
  exact map_range_reverse (f i) c

theorem npFlip2_specMatrix {α : Type} (r c : Nat) (f : Nat → Nat → α) :
    npFlip2 (specMatrix r c f) =
      specMatrix r c (fun i j => f (r - 1 - i) (c - 1 - j)) := by
  unfold npFlip2
  have h1 : (specMatrix r c f).map List.reverse =
      specMatrix r c (fun i j => f i (c - 1 - j)) := npFlipCols_specMatrix r c f
  rw [h1]
  unfold specMatrix
  exact map_range_reverse _ r

theorem slice2_matrix {α : Type} (d : Nat → Nat → α) (s1 s2 R1 R2 : Nat) :
    ((List.range R1).map (s1 + ·)).map
        (fun i => ((List.range R2).map (s2 + ·)).map (fun j => d i j))
      = specMatrix R1 R2 (fun i j => d (s1 + i) (s2 + j)) := by
  unfold specMatrix
  rw [List.map_map]
  apply List.map_congr_left
  intro i _
  simp only [Function.comp_apply]
  rw [List.map_map]
  rfl

/-- In-bounds origin, coronal view: `get_tile` returns
`dataset[z, y:y+T, x:x+T][::-1, ::-1]` as the explicit (possibly clipped)
index matrix. -/
theorem get_tile_coronal_clip {α : Type} (vol : Vol α) (zn yn xn T : Nat)
    (hz : zn < vol.sz) (hy : yn < vol.sy) (hx : xn < vol.sx) :
    get_tile vol ViewType.coronal zn yn xn T =
      Except.ok (specMatrix (min (yn + T) vol.sy - yn) (min (xn + T) vol.sx - xn)
        (fun i j => vol.data zn
          (yn + (min (yn + T) vol.sy - yn - 1 - i))
          (xn + (min (xn + T) vol.sx - xn - 1 - j)))) := by
  unfold get_tile
  rw [if_neg (by omega), if_neg (by omega), if_neg (by omega)]
  show Except.ok (npFlip2
      (((List.range (min (yn + T) vol.sy - yn)).map (yn + ·)).map
        (fun i => ((List.range (min (xn + T) vol.sx - xn)).map (xn + ·)).map
          (fun j => vol.data ((zn : Int)).toNat i j)))) = _
  rw [slice2_matrix, npFlip2_specMatrix]
  simp

/-- In-bounds origin, sagittal view: `get_tile` returns
`dataset[z:z+T, y:y+T, x][:, ::-1].T` as the explicit index matrix. -/
theorem get_tile_sagittal_clip {α : Type} (vol : Vol α) (zn yn xn T : Nat)
    (hz : zn < vol.sz) (hy : yn < vol.sy) (hx : xn < vol.sx) :
    get_tile vol ViewType.sagittal zn yn xn T =
      Except.ok (specMatrix (min (yn + T) vol.sy - yn) (min (zn + T) vol.sz - zn)
        (fun i j => vol.data (zn + j)
          (yn + (min (yn + T) vol.sy - yn - 1 - i)) xn)) := by
  unfold get_tile
  rw [if_neg (by omega), if_neg (by omega), if_neg (by omega)]
  have hlen : (sliceIdx yn T vol.sy).length = min (yn + T) vol.sy - yn := by
    simp [sliceIdx, npRange]
  show Except.ok (npT (sliceIdx yn T vol.sy).length
      (npFlipCols (((List.range (min (zn + T) vol.sz - zn)).map (zn + ·)).map
        (fun a => ((List.range (min (yn + T) vol.sy - yn)).map (yn + ·)).map
          (fun b => vol.data a b xn))))) = _
  rw [hlen, slice2_matrix, npFlipCols_specMatrix, npT_specMatrix]

/-- In-bounds origin, horizontal view: `get_tile` returns
`dataset[z:z+T, y, x:x+T][::-1, ::-1]` as the explicit index matrix. -/
theorem get_tile_horizontal_clip {α : Type} (vol : Vol α) (zn yn xn T : Nat)
    (hz : zn < vol.sz) (hy : yn < vol.sy) (hx : xn < vol.sx) :
    get_tile vol ViewType.horizontal zn yn xn T =
      Except.ok (specMatrix (min (zn + T) vol.sz - zn) (min (xn + T) vol.sx - xn)
        (fun i j => vol.data
          (zn + (min (zn + T) vol.sz - zn - 1 - i)) yn
          (xn + (min (xn + T) vol.sx - xn - 1 - j)))) := by
  unfold get_tile
  rw [if_neg (by omega), if_neg (by omega), if_neg (by omega)]
  show Except.ok (npFlip2
      (((List.range (min (zn + T) vol.sz - zn)).map (zn + ·)).map
        (fun a => ((List.range (min (xn + T) vol.sx - xn)).map (xn + ·)).map
          (fun b => vol.data a yn b)))) = _
  rw [slice2_matrix, npFlip2_specMatrix]

/-- C1: for every view, integer origin `(z, y, x)` and tile size `T` such
that the full tile fits inside the dataset, the extracted 2D tile is exactly
the claimed orientation: coronal is the z-slice over the y/x ranges reversed
along both output axes (`tile[i][j] = data[z][y+T-1-i][x+T-1-j]`); sagittal
is the fixed-x plane over z and y, reversed along y then transposed
(`tile[i][j] = data[z+j][y+T-1-i][x]`); horizontal is the y-slice over the
z/x ranges reversed along both axes
(`tile[i][j] = data[z+T-1-i][y][x+T-1-j]`). -/
theorem C1_view_orientation {α : Type} (vol : Vol α) (zn yn xn T : Nat)
    (hT : 0 < T) (hz : zn + T ≤ vol.sz) (hy : yn + T ≤ vol.sy)
    (hx : xn + T ≤ vol.sx) :
    get_tile vol ViewType.coronal zn yn xn T =
      Except.ok (specMatrix T T
        (fun i j => vol.data zn (yn + (T - 1 - i)) (xn + (T - 1 - j))))
    ∧ get_tile vol ViewType.sagittal zn yn xn T =
      Except.ok (specMatrix T T
        (fun i j => vol.data (zn + j) (yn + (T - 1 - i)) xn))
    ∧ get_tile vol ViewType.horizontal zn yn xn T =
      Except.ok (specMatrix T T
        (fun i j => vol.data (zn + (T - 1 - i)) yn (xn + (T - 1 - j)))) := by
  have hz' : zn < vol.sz := by omega
  have hy' : yn < vol.sy := by omega
  have hx' : xn < vol.sx := by omega
  refine ⟨?_, ?_, ?_⟩
  · have h := get_tile_coronal_clip vol zn yn xn T hz' hy' hx'
    simpa [Nat.min_eq_left hy, Nat.min_eq_left hx, Nat.add_sub_cancel_left] using h
  · have h := get_tile_sagittal_clip vol zn yn xn T hz' hy' hx'
    simpa [Nat.min_eq_left hy, Nat.min_eq_left hz, Nat.add_sub_cancel_left] using h
  · have h := get_tile_horizontal_clip vol zn yn xn T hz' hy' hx'
    simpa [Nat.min_eq_left hz, Nat.min_eq_left hx, Nat.add_sub_cancel_left] using h

/-- Witness for C1 on a `3×4×5` volume whose voxel `(a,b,c)` stores
`100a + 10b + c`, origin `(1,1,1)`, tile size 2: the three oriented tiles
evaluate to the expected explicit matrices. -/
theorem C1_view_orientation_witness :
    get_tile (⟨3, 4, 5, fun a b c => 100 * a + 10 * b + c⟩ : Vol Nat)
        ViewType.coronal ((1 : Nat) : Int) ((1 : Nat) : Int) ((1 : Nat) : Int) 2 =
        Except.ok [[122, 121], [112, 111]]
    ∧ get_tile (⟨3, 4, 5, fun a b c => 100 * a + 10 * b + c⟩ : Vol Nat)
        ViewType.sagittal ((1 : Nat) : Int) ((1 : Nat) : Int) ((1 : Nat) : Int) 2 =
        Except.ok [[121, 221], [111, 211]]
    ∧ get_tile (⟨3, 4, 5, fun a b c => 100 * a + 10 * b + c⟩ : Vol Nat)
        ViewType.horizontal ((1 : Nat) : Int) ((1 : Nat) : Int) ((1 : Nat) : Int) 2 =
        Except.ok [[212, 211], [112, 111]] := by
  have h := C1_view_orientation
    (⟨3, 4, 5, fun a b c => 100 * a + 10 * b + c⟩ : Vol Nat) 1 1 1 2
    (by decide) (by decide) (by decide) (by decide)
  refine ⟨?_, ?_, ?_⟩
  · rw [h.1]; rfl
  · rw [h.2.1]; rfl
  · rw [h.2.2]; rfl

/-- C3 counterexample: on a `4×4×4` dataset a coronal request at origin
`(0,0,0)` with tile size 8 overruns the shape (`0 + 8 > 4`) in the y and x
dimensions, yet `get_tile` raises no out-of-bounds error — it returns a
clipped `4×4` tile (short of the requested `8×8`), refuting the claim. -/
theorem C3_counterexample :
    0 + 8 > 4
    ∧ get_tile (⟨4, 4, 4, fun _ _ _ => 0⟩ : Vol Nat) ViewType.coronal 0 0 0 8 =
        Except.ok (List.replicate 4 (List.replicate 4 0)) := by
  exact ⟨by decide, by rfl⟩

/-- C3 amended: `get_tile` fails with an out-of-bounds error — naming the
offending dimension, coordinate and size — iff the origin itself is out of
range in some dimension (`origin[dim] < 0` or `origin[dim] ≥ shape[dim]`),
checking dimensions in z, y, x order; when the origin is in bounds but
`origin[dim] + T` exceeds the shape, it does not fail: it returns the
clipped (short) tile whose extents are `min(origin+T, shape) - origin`. -/
theorem C3_amended_origin_only_bounds {α : Type} (vol : Vol α) (z y x : Int)
    (T : Nat) :
    (∀ view, (∃ er, get_tile vol view z y x T = Except.error er) ↔
      (z < 0 ∨ (vol.sz : Int) ≤ z ∨ y < 0 ∨ (vol.sy : Int) ≤ y
        ∨ x < 0 ∨ (vol.sx : Int) ≤ x))
    ∧ ((z < 0 ∨ (vol.sz : Int) ≤ z) → ∀ view,
        get_tile vol view z y x T = Except.error (PyErr.indexError z 0 vol.sz))
    ∧ (¬(z < 0 ∨ (vol.sz : Int) ≤ z) → (y < 0 ∨ (vol.sy : Int) ≤ y) → ∀ view,
        get_tile vol view z y x T = Except.error (PyErr.indexError y 1 vol.sy))
    ∧ (¬(z < 0 ∨ (vol.sz : Int) ≤ z) → ¬(y < 0 ∨ (vol.sy : Int) ≤ y) →
        (x < 0 ∨ (vol.sx : Int) ≤ x) → ∀ view,
        get_tile vol view z y x T = Except.error (PyErr.indexError x 2 vol.sx))
    ∧ (¬(z < 0 ∨ (vol.sz : Int) ≤ z) → ¬(y < 0 ∨ (vol.sy : Int) ≤ y) →
        ¬(x < 0 ∨ (vol.sx : Int) ≤ x) →
        get_tile vol ViewType.coronal z y x T =
          Except.ok (specMatrix (min (y.toNat + T) vol.sy - y.toNat)
            (min (x.toNat + T) vol.sx - x.toNat)
            (fun i j => vol.data z.toNat
              (y.toNat + (min (y.toNat + T) vol.sy - y.toNat - 1 - i))
              (x.toNat + (min (x.toNat + T) vol.sx - x.toNat - 1 - j))))) := by
  refine ⟨?_, ?_, ?_, ?_, ?_⟩
  · intro view
    by_cases h1 : z < 0 ∨ (vol.sz : Int) ≤ z
    · exact iff_of_true ⟨PyErr.indexError z 0 vol.sz, by simp [get_tile, h1]⟩
        (by tauto)
    · by_cases h2 : y < 0 ∨ (vol.sy : Int) ≤ y
      · exact iff_of_true ⟨PyErr.indexError y 1 vol.sy, by simp [get_tile, h1, h2]⟩
          (by tauto)
      · by_cases h3 : x < 0 ∨ (vol.sx : Int) ≤ x
        · exact iff_of_true ⟨PyErr.indexError x 2 vol.sx,
            by simp [get_tile, h1, h2, h3]⟩ (by tauto)
        · refine iff_of_false ?_ (by tauto)
          rintro ⟨er, her⟩
          cases view <;> simp [get_tile, h1, h2, h3] at her
  · intro h1 view
    simp [get_tile, h1]
  · intro h1 h2 view
    simp [get_tile, h1, h2]
  · intro h1 h2 h3 view
    simp [get_tile, h1, h2, h3]
  · intro h1 h2 h3
    obtain ⟨zn, rfl⟩ : ∃ n : Nat, z = (n : Int) :=
      ⟨z.toNat, (Int.toNat_of_nonneg (by omega)).symm⟩
    obtain ⟨yn, rfl⟩ : ∃ n : Nat, y = (n : Int) :=
      ⟨y.toNat, (Int.toNat_of_nonneg (by omega)).symm⟩
    obtain ⟨xn, rfl⟩ : ∃ n : Nat, x = (n : Int) :=
      ⟨x.toNat, (Int.toNat_of_nonneg (by omega)).symm⟩
    have h := get_tile_coronal_clip vol zn yn xn T (by omega) (by omega) (by omega)
    simpa using h

/-- Witness for C3 amended on the `3×4×5` volume: origin `(5,0,0)` fails
with the z-dimension out-of-bounds error, while origin `(0,0,3)` with tile
size 8 succeeds with a clipped `4×2` coronal tile. -/
theorem C3_amended_origin_only_bounds_witness :
    get_tile (⟨3, 4, 5, fun a b c => 100 * a + 10 * b + c⟩ : Vol Nat)
        ViewType.coronal 5 0 0 8 = Except.error (PyErr.indexError 5 0 3)
    ∧ get_tile (⟨3, 4, 5, fun a b c => 100 * a + 10 * b + c⟩ : Vol Nat)
        ViewType.coronal 0 0 3 8 = Except.ok [[34, 33], [24, 23], [14, 13], [4, 3]] := by
  constructor
  · exact (C3_amended_origin_only_bounds
      (⟨3, 4, 5, fun a b c => 100 * a + 10 * b + c⟩ : Vol Nat) 5 0 0 8).2.1
      (by decide) ViewType.coronal
  · have h := (C3_amended_origin_only_bounds
      (⟨3, 4, 5, fun a b c => 100 * a + 10 * b + c⟩ : Vol Nat) 0 0 3 8).2.2.2.2
      (by decide) (by decide) (by decide)
    rw [h]
    rfl

end Cerevi
